import Mathlib

/-
Verification of the transport/resilience core of the jirasdk-ts repository:
typed error taxonomy, retry middleware, circuit breaker, rate limiter,
middleware composer, HTTP error classification, and the OAuth2 single-flight
token refresh coordinator.  Every definition is a shallow embedding of the
corresponding TypeScript source (packages/core/src/...), with JavaScript
truthiness and `instanceof` checks made explicit.
-/

namespace JiraSdk

/-- Shallow embedding of the SDK error hierarchy (errors/base.error.ts,
errors/network.error.ts, errors/api.error.ts, errors/auth.error.ts).
Each constructor corresponds to one concrete error class.  `timeoutErr`
records the millisecond duration reported by the error at its construction
site (interpolated into the message by `executeRequest`); `rateLimited`
records the optional `retryAfter` field in milliseconds. -/
inductive SdkError where
  | network (msg : String)
  | timeoutErr (reportedMs : Option Int)
  | abortErr
  | unauthorized
  | forbidden
  | notFound
  | rateLimited (retryAfter : Option Int)
  | serverErr (statusCode : Int)
  | apiOther (statusCode : Int)
  | validationErr
  | circuitOpenErr (remainingMs : Int)
  | tokenExpired
  | tokenRefreshErr
  | authConfigErr
  | otherErr
  deriving DecidableEq, Repr

/-- JavaScript `error instanceof NetworkError`: only the NetworkError class
itself (TimeoutError and AbortError extend JiraSdkError directly, not
NetworkError — see errors/network.error.ts). -/
def isNetworkError : SdkError → Bool
  | .network _ => true
  | _ => false

/-- JavaScript `error instanceof TimeoutError`. -/
def isTimeoutError : SdkError → Bool
  | .timeoutErr _ => true
  | _ => false

/-- JavaScript `error instanceof ApiError`: ApiError and its subclasses
UnauthorizedError, ForbiddenError, NotFoundError, RateLimitError, ServerError
(errors/api.error.ts). -/
def isApiError : SdkError → Bool
  | .unauthorized => true
  | .forbidden => true
  | .notFound => true
  | .rateLimited _ => true
  | .serverErr _ => true
  | .apiOther _ => true
  | _ => false

/-- JavaScript `error instanceof RateLimitError`. -/
def isRateLimitError : SdkError → Bool
  | .rateLimited _ => true
  | _ => false

/-- JavaScript `error instanceof ServerError`. -/
def isServerError : SdkError → Bool
  | .serverErr _ => true
  | _ => false

/-- The `statusCode` property of an error that is an instance of ApiError
(always set by the ApiError constructor; `none` for non-ApiError errors). -/
def apiStatusCode : SdkError → Option Int
  | .unauthorized => some 401
  | .forbidden => some 403
  | .notFound => some 404
  | .rateLimited _ => some 429
  | .serverErr sc => some sc
  | .apiOther sc => some sc
  | _ => none

/-- Embedding of `defaultShouldRetry` (transport/middleware.ts lines
136-158): retry on RateLimitError, ServerError, NetworkError; never on
other ApiError instances; `false` for everything else. -/
def defaultShouldRetry (e : SdkError) : Bool :=
  if isRateLimitError e then true
  else if isServerError e then true
  else if isNetworkError e then true
  else if isApiError e then false
  else false

/-- Embedding of `defaultIsFailure` (transport/circuit-breaker.ts lines
212-227): NetworkError, ServerError and RateLimitError count; an ApiError
with a defined statusCode counts only when the status is at least 500;
everything else does not count. -/
def defaultIsFailure (e : SdkError) : Bool :=
  if isNetworkError e then true
  else if isServerError e then true
  else if isRateLimitError e then true
  else if isApiError e then
    match apiStatusCode e with
    | some sc => decide (500 ≤ sc)
    | none => false
  else false

/-- Circuit breaker states (transport/circuit-breaker.ts `CircuitState`). -/
inductive CircuitState where
  | CLOSED
  | OPEN
  | HALF_OPEN
  deriving DecidableEq, Repr

/-- Circuit breaker configuration (transport/circuit-breaker.ts
`CircuitBreakerConfig` with the constructor's defaults).  Times are in
milliseconds; `isFailure` is the pluggable qualifying-failure predicate. -/
structure CircuitBreakerConfig where
  failureThreshold : Nat := 5
  resetTimeoutMs : Int := 30000
  failureWindowMs : Int := 60000
  successThreshold : Nat := 1
  isFailure : SdkError → Bool := defaultIsFailure

/-- Mutable state of a CircuitBreaker instance (transport/circuit-breaker.ts
fields `state`, `failures`, `lastFailureTime`, `successCount`).  `failures`
is the list of failure timestamps; `Date.now()` is passed explicitly as
`now` to every operation. -/
structure CircuitBreaker where
  state : CircuitState
  failures : List Int
  lastFailureTime : Int
  successCount : Nat
  deriving DecidableEq, Repr

namespace CircuitBreaker

/-- Embedding of `cleanupFailures` (circuit-breaker.ts lines 203-206):
keep only timestamps strictly greater than `now - failureWindowMs`. -/
def cleanupFailures (cfg : CircuitBreakerConfig) (now : Int) (cb : CircuitBreaker) :
    CircuitBreaker :=
  { cb with failures := cb.failures.filter (fun t => decide (now - cfg.failureWindowMs < t)) }

/-- Embedding of `reset` (circuit-breaker.ts lines 158-165). -/
def reset (cb : CircuitBreaker) : CircuitBreaker :=
  let cb1 : CircuitBreaker := { cb with failures := [], successCount := 0, lastFailureTime := 0 }
  if cb1.state ≠ CircuitState.CLOSED then { cb1 with state := CircuitState.CLOSED } else cb1

/-- Embedding of `recordSuccess` (circuit-breaker.ts lines 107-118): in
HALF_OPEN, increment the success counter and close the circuit (with a full
reset) once it reaches the success threshold; in CLOSED, prune old failures;
in OPEN, no effect. -/
def recordSuccess (cfg : CircuitBreakerConfig) (now : Int) (cb : CircuitBreaker) :
    CircuitBreaker :=
  if cb.state = CircuitState.HALF_OPEN then
    let cb1 : CircuitBreaker := { cb with successCount := cb.successCount + 1 }
    if cfg.successThreshold ≤ cb1.successCount then
      reset { cb1 with state := CircuitState.CLOSED }
    else cb1
  else if cb.state = CircuitState.CLOSED then cleanupFailures cfg now cb
  else cb

/-- Embedding of `recordFailure` (circuit-breaker.ts lines 123-142): ignore
non-qualifying errors; otherwise push the current time, update
`lastFailureTime`, prune the window, then reopen from HALF_OPEN, or open
from CLOSED when the windowed failure count reaches the threshold. -/
def recordFailure (cfg : CircuitBreakerConfig) (now : Int) (e : SdkError)
    (cb : CircuitBreaker) : CircuitBreaker :=
  if cfg.isFailure e = false then cb
  else
    let cb1 : CircuitBreaker := { cb with failures := cb.failures ++ [now], lastFailureTime := now }
    let cb2 := cleanupFailures cfg now cb1
    if cb2.state = CircuitState.HALF_OPEN then
      { cb2 with state := CircuitState.OPEN, successCount := 0 }
    else if cb2.state = CircuitState.CLOSED then
      if cfg.failureThreshold ≤ cb2.failures.length then
        { cb2 with state := CircuitState.OPEN }
      else cb2
    else cb2

/-- Embedding of `updateState` (circuit-breaker.ts lines 185-193): the lazy
OPEN to HALF_OPEN transition, evaluated whenever state is queried — once the
time elapsed since the last failure reaches the reset timeout. -/
def updateState (cfg : CircuitBreakerConfig) (now : Int) (cb : CircuitBreaker) :
    CircuitBreaker :=
  if cb.state = CircuitState.OPEN ∧ cfg.resetTimeoutMs ≤ now - cb.lastFailureTime then
    { cb with state := CircuitState.HALF_OPEN, successCount := 0 }
  else cb

/-- Embedding of `getState` (circuit-breaker.ts lines 91-94). -/
def getState (cfg : CircuitBreakerConfig) (now : Int) (cb : CircuitBreaker) : CircuitState :=
  (updateState cfg now cb).state

/-- Embedding of `canExecute` (circuit-breaker.ts lines 99-102): after the
lazy update, requests are allowed in every state except OPEN. -/
def canExecute (cfg : CircuitBreakerConfig) (now : Int) (cb : CircuitBreaker) : Bool :=
  decide ((updateState cfg now cb).state ≠ CircuitState.OPEN)

/-- Embedding of `getRemainingOpenTime` (circuit-breaker.ts lines 147-153). -/
def getRemainingOpenTime (cfg : CircuitBreakerConfig) (now : Int)
    (cb : CircuitBreaker) : Int :=
  if cb.state ≠ CircuitState.OPEN then 0
  else max 0 (cfg.resetTimeoutMs - (now - cb.lastFailureTime))

end CircuitBreaker

/-- The breaker configuration used by the spec's testable properties:
failureThreshold 3, resetTimeoutMs 1000, default failure predicate. -/
def cbCfgEx : CircuitBreakerConfig :=
  { failureThreshold := 3, resetTimeoutMs := 1000, failureWindowMs := 60000,
    successThreshold := 1, isFailure := defaultIsFailure }

end JiraSdk

open JiraSdk

/-- Claim C1, counterexample: a Timeout error (TimeoutError is a direct
subclass of JiraSdkError, not of NetworkError or ApiError) is classified as
NOT retryable by the default retry predicate and is NOT counted as a
qualifying failure by the circuit breaker's default failure predicate,
contradicting the claim that it is retried and counts as network-class. -/
theorem C1_counterexample :
    defaultShouldRetry (SdkError.timeoutErr (some 30000)) = false ∧
    defaultIsFailure (SdkError.timeoutErr (some 30000)) = false := by
  decide

/-- Claim C1 (amended): for every Timeout error, the retry middleware's
default retry predicate classifies it as non-retryable, and the circuit
breaker's default failure predicate does not count it as a qualifying
failure, because TimeoutError is not a subclass of NetworkError,
ServerError, RateLimitError or ApiError. -/
theorem C1_timeout_not_default_retried (ms : Option Int) :
    defaultShouldRetry (SdkError.timeoutErr ms) = false ∧
    defaultIsFailure (SdkError.timeoutErr ms) = false := by
  exact ⟨rfl, rfl⟩

/-- Claim C3: starting from CLOSED, recording a qualifying failure opens the
circuit exactly when the windowed failure count reaches the threshold; a
failure recorded while OPEN leaves it OPEN; while OPEN and before the reset
timeout has elapsed, canExecute() returns false; and canExecute() returns
false only when the (lazily updated) state is OPEN. -/
theorem C3_closed_to_open (cfg : CircuitBreakerConfig) (cb : CircuitBreaker)
    (now : Int) (e : SdkError) :
    (cb.state = CircuitState.CLOSED → cfg.isFailure e = true →
      cfg.failureThreshold ≤ (CircuitBreaker.recordFailure cfg now e cb).failures.length →
      (CircuitBreaker.recordFailure cfg now e cb).state = CircuitState.OPEN)
    ∧ (cb.state = CircuitState.OPEN →
      (CircuitBreaker.recordFailure cfg now e cb).state = CircuitState.OPEN)
    ∧ (cb.state = CircuitState.OPEN → now - cb.lastFailureTime < cfg.resetTimeoutMs →
      CircuitBreaker.canExecute cfg now cb = false)
    ∧ (CircuitBreaker.canExecute cfg now cb = false →
      CircuitBreaker.getState cfg now cb = CircuitState.OPEN) := by
  refine ⟨?_, ?_, ?_, ?_⟩
  · intro hst hfail hlen
    simp [CircuitBreaker.recordFailure, CircuitBreaker.cleanupFailures, hfail,
      hst] at hlen ⊢
    split at hlen
    · simp_all
    · simp_all
  · intro hst
    by_cases hfail : cfg.isFailure e = false
    · simp [CircuitBreaker.recordFailure, hfail, hst]
    · simp only [Bool.not_eq_false] at hfail
      simp [CircuitBreaker.recordFailure, CircuitBreaker.cleanupFailures, hfail, hst]
  · intro hst helapsed
    have hnot : ¬ (cfg.resetTimeoutMs ≤ now - cb.lastFailureTime) := by omega
    simp [CircuitBreaker.canExecute, CircuitBreaker.updateState, hst, hnot]
  · intro hcan
    simp only [CircuitBreaker.canExecute, decide_eq_false_iff_not, Decidable.not_not] at hcan
    exact hcan

/-- Claim C3, witness: with failureThreshold=3 and resetTimeoutMs=1000, a
third qualifying failure recorded from CLOSED yields OPEN, and canExecute()
is false while OPEN before the reset timeout. -/
theorem C3_closed_to_open_witness :
    (CircuitBreaker.recordFailure cbCfgEx 0 (SdkError.serverErr 500)
      ⟨CircuitState.CLOSED, [0, 0], 0, 0⟩).state = CircuitState.OPEN
    ∧ CircuitBreaker.canExecute cbCfgEx 500
      ⟨CircuitState.OPEN, [0, 0, 0], 0, 0⟩ = false := by
  refine ⟨(C3_closed_to_open cbCfgEx ⟨CircuitState.CLOSED, [0, 0], 0, 0⟩ 0
      (SdkError.serverErr 500)).1 rfl (by decide) (by decide),
    (C3_closed_to_open cbCfgEx ⟨CircuitState.OPEN, [0, 0, 0], 0, 0⟩ 500
      (SdkError.serverErr 500)).2.2.1 rfl (by decide)⟩

/-- Claim C4: once the breaker is OPEN and the reset timeout has elapsed
since the last failure, the next lazy state read yields HALF_OPEN and
canExecute() returns true; and with successThreshold=1, one success recorded
in HALF_OPEN yields CLOSED with the failure window and counters reset. -/
theorem C4_half_open_recovery (cfg : CircuitBreakerConfig) (cb : CircuitBreaker)
    (now : Int) :
    (cb.state = CircuitState.OPEN → cfg.resetTimeoutMs ≤ now - cb.lastFailureTime →
      CircuitBreaker.getState cfg now cb = CircuitState.HALF_OPEN
      ∧ CircuitBreaker.canExecute cfg now cb = true)
    ∧ (cb.state = CircuitState.HALF_OPEN → cfg.successThreshold = 1 →
      CircuitBreaker.recordSuccess cfg now cb = ⟨CircuitState.CLOSED, [], 0, 0⟩) := by
  constructor
  · intro hst helapsed
    constructor
    · simp [CircuitBreaker.getState, CircuitBreaker.updateState, hst, helapsed]
    · simp [CircuitBreaker.canExecute, CircuitBreaker.updateState, hst, helapsed]
  · intro hst hthr
    simp [CircuitBreaker.recordSuccess, hst, hthr, CircuitBreaker.reset]

/-- Claim C4, witness: for the example breaker (resetTimeoutMs=1000,
successThreshold=1), at time 1000 after a failure at time 0 the state read
yields HALF_OPEN with canExecute() true, and one success in HALF_OPEN yields
CLOSED with failure count 0. -/
theorem C4_half_open_recovery_witness :
    CircuitBreaker.getState cbCfgEx 1000 ⟨CircuitState.OPEN, [0, 0, 0], 0, 0⟩
      = CircuitState.HALF_OPEN
    ∧ CircuitBreaker.canExecute cbCfgEx 1000 ⟨CircuitState.OPEN, [0, 0, 0], 0, 0⟩ = true
    ∧ CircuitBreaker.recordSuccess cbCfgEx 1000 ⟨CircuitState.HALF_OPEN, [0, 0, 0], 0, 0⟩
      = ⟨CircuitState.CLOSED, [], 0, 0⟩ := by
  refine ⟨((C4_half_open_recovery cbCfgEx ⟨CircuitState.OPEN, [0, 0, 0], 0, 0⟩ 1000).1
      rfl (by decide)).1,
    ((C4_half_open_recovery cbCfgEx ⟨CircuitState.OPEN, [0, 0, 0], 0, 0⟩ 1000).1
      rfl (by decide)).2,
    (C4_half_open_recovery cbCfgEx ⟨CircuitState.HALF_OPEN, [0, 0, 0], 0, 0⟩ 1000).2
      rfl rfl⟩

namespace JiraSdk

/-- Embedding of `exponentialBackoff` (utils/index.ts lines 117-131):
`min(baseDelay * multiplier^attempt, maxDelay)`, plus, when jitter is on,
`(Math.random() * 2 - 1) * (delay * 0.25)`.  `rand` models the
`Math.random()` draw, a value in [0, 1]. -/
def exponentialBackoff (attempt : Nat) (baseDelay maxDelay multiplier : ℚ)
    (jitter : Bool) (rand : ℚ) : ℚ :=
  let delay := min (baseDelay * multiplier ^ attempt) maxDelay
  if jitter then delay + (rand * 2 - 1) * (delay * (1 / 4)) else delay

/-- JavaScript truthiness of `error instanceof RateLimitError &&
error.retryAfter` (middleware.ts line 202): the error is a RateLimitError
whose retryAfter is defined and nonzero. -/
def hasRetryAfterHint : SdkError → Bool
  | .rateLimited (some r) => decide (r ≠ 0)
  | _ => false

/-- Embedding of the retry middleware's delay computation (middleware.ts
lines 198-206): use `error.retryAfter` when truthy, else exponential
backoff. -/
def retryDelayMs (e : SdkError) (attempt : Nat)
    (initialDelayMs maxDelayMs multiplier : ℚ) (jitter : Bool) (rand : ℚ) : ℚ :=
  match e with
  | .rateLimited (some r) =>
    if r ≠ 0 then (r : ℚ)
    else exponentialBackoff attempt initialDelayMs maxDelayMs multiplier jitter rand
  | _ => exponentialBackoff attempt initialDelayMs maxDelayMs multiplier jitter rand

/-- Without a truthy retry-after hint the delay is exactly the backoff
formula. -/
lemma retryDelayMs_no_hint (e : SdkError) (attempt : Nat)
    (base maxD mult : ℚ) (jit : Bool) (rand : ℚ)
    (he : hasRetryAfterHint e = false) :
    retryDelayMs e attempt base maxD mult jit rand
      = exponentialBackoff attempt base maxD mult jit rand := by
  cases e with
  | rateLimited o =>
    cases o with
    | none => simp [retryDelayMs]
    | some r =>
      simp only [hasRetryAfterHint, decide_eq_false_iff_not, Decidable.not_not] at he
      simp [retryDelayMs, he]
  | _ => simp [retryDelayMs]

/-- The jittered backoff stays within plus or minus 25 percent of the
clamped exponential delay. -/
lemma exponentialBackoff_jitter_bounds (attempt : Nat) (base maxD mult rand : ℚ)
    (hbase : 0 ≤ base) (hmax : 0 ≤ maxD) (hmult : 0 ≤ mult)
    (hrand0 : 0 ≤ rand) (hrand1 : rand ≤ 1) :
    (3 / 4) * min (base * mult ^ attempt) maxD
        ≤ exponentialBackoff attempt base maxD mult true rand
    ∧ exponentialBackoff attempt base maxD mult true rand
        ≤ (5 / 4) * min (base * mult ^ attempt) maxD := by
  have hd : 0 ≤ min (base * mult ^ attempt) maxD :=
    le_min (mul_nonneg hbase (pow_nonneg hmult _)) hmax
  simp only [exponentialBackoff, if_true]
  constructor <;> nlinarith [hd]

end JiraSdk

/-- Claim C5, counterexample: a RateLimitError whose retryAfter field is 0
does carry a retry-after hint, yet the middleware's delay is the 1000ms
exponential backoff, not the 0ms hint — `error.retryAfter` is checked for
JavaScript truthiness, so a zero hint is ignored. -/
theorem C5_counterexample :
    retryDelayMs (SdkError.rateLimited (some 0)) 0 1000 30000 2 false 0 = 1000
    ∧ (1000 : ℚ) ≠ 0 := by
  constructor
  · simp [retryDelayMs, exponentialBackoff]
    norm_num
  · norm_num

/-- Claim C5 (amended): when the retry middleware retries a failure, if the
error is a rate-limit error carrying a nonzero retry-after hint, the delay
slept equals that hint exactly (a zero or absent hint falls through to
backoff); otherwise the delay is min(base * multiplier^attempt, maxDelay),
widened by plus or minus 25 percent uniform jitter when jitter is
enabled. -/
theorem C5_retry_delay (r : Int) (e : SdkError) (attempt : Nat)
    (base maxD mult rand : ℚ) (jit : Bool)
    (hbase : 0 ≤ base) (hmax : 0 ≤ maxD) (hmult : 0 ≤ mult)
    (hrand0 : 0 ≤ rand) (hrand1 : rand ≤ 1) :
    (r ≠ 0 →
      retryDelayMs (SdkError.rateLimited (some r)) attempt base maxD mult jit rand = (r : ℚ))
    ∧ (hasRetryAfterHint e = false →
      retryDelayMs e attempt base maxD mult false rand
        = min (base * mult ^ attempt) maxD)
    ∧ (hasRetryAfterHint e = false →
      (3 / 4) * min (base * mult ^ attempt) maxD
          ≤ retryDelayMs e attempt base maxD mult true rand
      ∧ retryDelayMs e attempt base maxD mult true rand
          ≤ (5 / 4) * min (base * mult ^ attempt) maxD) := by
  refine ⟨?_, ?_, ?_⟩
  · intro hr
    simp [retryDelayMs, hr]
  · intro he
    rw [retryDelayMs_no_hint e attempt base maxD mult false rand he]
    simp [exponentialBackoff]
  · intro he
    rw [retryDelayMs_no_hint e attempt base maxD mult true rand he]
    exact exponentialBackoff_jitter_bounds attempt base maxD mult rand
      hbase hmax hmult hrand0 hrand1

/-- Claim C5, witness: retryAfter=1 yields a 1ms delay (not the 1000ms base
delay), and a ServerError at attempt 0 with jitter off yields the 1000ms
base delay. -/
theorem C5_retry_delay_witness :
    retryDelayMs (SdkError.rateLimited (some 1)) 0 1000 30000 2 false 0 = 1
    ∧ retryDelayMs (SdkError.serverErr 500) 0 1000 30000 2 false 0 = 1000 := by
  constructor
  · have h := (C5_retry_delay 1 (SdkError.serverErr 500) 0 1000 30000 2 0 false
      (by norm_num) (by norm_num) (by norm_num) (by norm_num) (by norm_num)).1
      (by decide)
    simpa using h
  · have h := (C5_retry_delay 1 (SdkError.serverErr 500) 0 1000 30000 2 0 false
      (by norm_num) (by norm_num) (by norm_num) (by norm_num) (by norm_num)).2.1
      (by decide)
    rw [h]
    norm_num

namespace JiraSdk

/-- Observable outcome of one run of the retry middleware: the settled
result, the number of calls made to the inner handler, and the list of
delays slept between attempts. -/
structure RetryTrace (ρ : Type) where
  result : Except SdkError ρ
  calls : Nat
  delays : List ℚ

/-- Embedding of the loop body of `createRetryMiddleware` (middleware.ts
lines 183-220).  `handler i` models `next(context)` invoked after
`context.retryCount = i`; on failure, if `attempt >= maxRetries` or the
retry predicate rejects, the error is rethrown at once with no delay;
otherwise a delay is slept and the loop continues.  `fuel` counts the
remaining loop iterations; `runRetry` supplies `maxRetries + 1`, the loop's
exact trip count, so the fuel-exhausted branch (the unreachable
`throw lastError` after the loop) is never taken from a real start. -/
def retryAux {ρ : Type} (handler : Nat → Except SdkError ρ)
    (shouldRetry : SdkError → Bool) (maxRetries : Nat)
    (delayFn : SdkError → Nat → ℚ) : Nat → Nat → RetryTrace ρ
  | _, 0 => ⟨Except.error SdkError.otherErr, 0, []⟩
  | attempt, fuel + 1 =>
    match handler attempt with
    | Except.ok r => ⟨Except.ok r, 1, []⟩
    | Except.error e =>
      if maxRetries ≤ attempt ∨ shouldRetry e = false then ⟨Except.error e, 1, []⟩
      else
        let rest := retryAux handler shouldRetry maxRetries delayFn (attempt + 1) fuel
        ⟨rest.result, rest.calls + 1, delayFn e attempt :: rest.delays⟩

/-- One full run of the retry middleware: attempts are zero-indexed, from
attempt 0 up to at most attempt `maxRetries`. -/
def runRetry {ρ : Type} (handler : Nat → Except SdkError ρ)
    (shouldRetry : SdkError → Bool) (maxRetries : Nat)
    (delayFn : SdkError → Nat → ℚ) : RetryTrace ρ :=
  retryAux handler shouldRetry maxRetries delayFn 0 (maxRetries + 1)

/-- When every attempt fails with a retryable error, the loop makes exactly
`fuel` calls from any start position and settles with the error of the last
attempt. -/
lemma retryAux_exhaust {ρ : Type} (handler : Nat → Except SdkError ρ)
    (shouldRetry : SdkError → Bool) (maxRetries : Nat)
    (delayFn : SdkError → Nat → ℚ) (f : Nat → SdkError)
    (hh : ∀ i, handler i = Except.error (f i))
    (hr : ∀ i, shouldRetry (f i) = true) :
    ∀ fuel attempt, attempt + fuel = maxRetries + 1 → 1 ≤ fuel →
      (retryAux handler shouldRetry maxRetries delayFn attempt fuel).result
          = Except.error (f maxRetries)
      ∧ (retryAux handler shouldRetry maxRetries delayFn attempt fuel).calls = fuel := by
  intro fuel
  induction fuel with
  | zero => intro attempt hsum h1; omega
  | succ n ih =>
    intro attempt hsum _
    by_cases hle : maxRetries ≤ attempt
    · have hA : attempt = maxRetries := by omega
      have hn : n = 0 := by omega
      simp [retryAux, hA, hh maxRetries]
      all_goals omega
    · have hn1 : 1 ≤ n := by omega
      have hrec := ih (attempt + 1) (by omega) hn1
      simp [retryAux, hh attempt, hle, hr attempt, hrec.1, hrec.2]

end JiraSdk

/-- Claim C6: if the retry predicate rejects the first error, the retry
middleware makes exactly one call to the inner handler and rethrows that
same error with no delay slept; and when every attempt fails with a
retryable error, the middleware makes exactly maxRetries+1 inner calls and
re-raises the last attempt's error unchanged. -/
theorem C6_retry_control_flow {ρ : Type} (handler : Nat → Except SdkError ρ)
    (shouldRetry : SdkError → Bool) (maxRetries : Nat)
    (delayFn : SdkError → Nat → ℚ) (e : SdkError) (f : Nat → SdkError) :
    (handler 0 = Except.error e → shouldRetry e = false →
      runRetry handler shouldRetry maxRetries delayFn = ⟨Except.error e, 1, []⟩)
    ∧ ((∀ i, handler i = Except.error (f i)) → (∀ i, shouldRetry (f i) = true) →
      (runRetry handler shouldRetry maxRetries delayFn).result = Except.error (f maxRetries)
      ∧ (runRetry handler shouldRetry maxRetries delayFn).calls = maxRetries + 1) := by
  constructor
  · intro h0 hs
    simp [runRetry, retryAux, h0, hs]
  · intro hh hr
    exact retryAux_exhaust handler shouldRetry maxRetries delayFn f hh hr
      (maxRetries + 1) 0 (by omega) (by omega)

/-- Claim C6, witness: a handler that always throws a generic 400 ApiError
is, under the default predicate, called exactly once with immediate rethrow
and no delays; a handler that always throws a 500 ServerError with
maxRetries=3 is called exactly 4 times. -/
theorem C6_retry_control_flow_witness :
    runRetry (fun _ => Except.error (SdkError.apiOther 400)) defaultShouldRetry 3
        (fun _ _ => 0)
      = (⟨Except.error (SdkError.apiOther 400), 1, []⟩ : RetryTrace Unit)
    ∧ (runRetry (fun _ => (Except.error (SdkError.serverErr 500) : Except SdkError Unit))
        defaultShouldRetry 3 (fun _ _ => 0)).calls = 4 := by
  refine ⟨(C6_retry_control_flow (fun _ => Except.error (SdkError.apiOther 400))
      defaultShouldRetry 3 (fun _ _ => 0) (SdkError.apiOther 400)
      (fun _ => SdkError.apiOther 400)).1 rfl (by decide),
    ((C6_retry_control_flow (fun _ => Except.error (SdkError.serverErr 500))
      defaultShouldRetry 3 (fun _ _ => 0) (SdkError.serverErr 500)
      (fun _ => SdkError.serverErr 500)).2 (fun _ => rfl) (fun _ => by decide)).2⟩

namespace JiraSdk

/-- The value caught by the catch block of `HttpClient.executeRequest`
(transport/http-client.ts lines 339-362): an error that is already an
instance of ApiError (rethrown from `handleErrorResponse`), some other JS
Error with its `name` and `message`, or a thrown non-Error value. -/
inductive CaughtError where
  | api (e : SdkError)
  | jsError (name msg : String)
  | nonError
  deriving DecidableEq, Repr

/-- Embedding of the catch block of `HttpClient.executeRequest`
(http-client.ts lines 339-362): ApiError instances are rethrown unchanged;
an error named AbortError becomes an AbortError when the caller-supplied
signal is aborted and otherwise a TimeoutError whose message reports
`request.timeout ?? this.timeout` milliseconds; every other failure is
wrapped as a NetworkError.  `signalAborted` models
`request.signal?.aborted` being true. -/
def classifyExecError (reqTimeout : Option Int) (clientTimeout : Int)
    (signalAborted : Bool) : CaughtError → SdkError
  | .api e => e
  | .jsError name msg =>
    if name = "AbortError" then
      if signalAborted then SdkError.abortErr
      else SdkError.timeoutErr (some (reqTimeout.getD clientTimeout))
    else SdkError.network ("Network error: " ++ msg)
  | .nonError => SdkError.network "Unknown network error"

end JiraSdk

/-- Claim C7: when a dispatched request fails, an already-classified API
error is rethrown unchanged; an abort with the caller-supplied signal
aborted yields an Abort error; an abort with the caller signal not aborted
(internal timer expiry) yields a Timeout error reporting the effective
timeout (per-request override, else the client default); and any other
failure is wrapped as a Network error. -/
theorem C7_abort_classification (reqT : Option Int) (clientT : Int) :
    (∀ (sa : Bool) (e : SdkError),
      classifyExecError reqT clientT sa (CaughtError.api e) = e)
    ∧ (∀ msg, classifyExecError reqT clientT true (CaughtError.jsError "AbortError" msg)
        = SdkError.abortErr)
    ∧ (∀ msg, classifyExecError reqT clientT false (CaughtError.jsError "AbortError" msg)
        = SdkError.timeoutErr (some (reqT.getD clientT)))
    ∧ (∀ (sa : Bool) (name msg : String), name ≠ "AbortError" →
        isNetworkError (classifyExecError reqT clientT sa (CaughtError.jsError name msg))
          = true)
    ∧ (∀ sa : Bool,
        isNetworkError (classifyExecError reqT clientT sa CaughtError.nonError) = true) := by
  refine ⟨fun sa e => rfl, fun msg => by simp [classifyExecError],
    fun msg => by simp [classifyExecError], ?_, fun sa => rfl⟩
  intro sa name msg hname
  simp [classifyExecError, hname, isNetworkError]

/-- Claim C7, witness: with a 5000ms per-request timeout and 30000ms client
default, an AbortError with the caller signal aborted classifies as Abort,
without it as Timeout reporting 5000ms, and a TypeError as Network. -/
theorem C7_abort_classification_witness :
    classifyExecError (some 5000) 30000 true (CaughtError.jsError "AbortError" "x")
      = SdkError.abortErr
    ∧ classifyExecError (some 5000) 30000 false (CaughtError.jsError "AbortError" "x")
      = SdkError.timeoutErr (some 5000)
    ∧ isNetworkError (classifyExecError (some 5000) 30000 false
        (CaughtError.jsError "TypeError" "fetch failed")) = true := by
  exact ⟨(C7_abort_classification (some 5000) 30000).2.1 "x",
    (C7_abort_classification (some 5000) 30000).2.2.1 "x",
    (C7_abort_classification (some 5000) 30000).2.2.2.1 false "TypeError" "fetch failed"
      (by decide)⟩

namespace JiraSdk

/-- A `MiddlewareNext` function (transport/types.ts): takes the context and
produces a response.  Asynchronous effects and context mutation are modeled
by threading a state of type σ; ρ is the response type. -/
def MiddlewareNext (σ ρ : Type) : Type := σ → σ × ρ

/-- A `Middleware` function (transport/types.ts): takes the context and a
`next` continuation. -/
def Middleware (σ ρ : Type) : Type := σ → MiddlewareNext σ ρ → σ × ρ

/-- Embedding of `composeMiddleware` (transport/middleware.ts lines
371-380): build the chain from right to left by `reduceRight`, starting
from the received `next`, so the first middleware in the list is
outermost. -/
def composeMiddleware {σ ρ : Type} (mws : List (Middleware σ ρ)) : Middleware σ ρ :=
  fun ctx next =>
    (mws.foldr (fun mw nextFn => fun c => mw c nextFn) next) ctx

/-- Embedding of `HttpClient.buildMiddlewareChain` (http-client.ts lines
230-240): the same right-to-left fold over the installed middleware list,
terminated by the final handler that executes the request. -/
def buildMiddlewareChain {σ ρ : Type} (mws : List (Middleware σ ρ))
    (finalHandler : MiddlewareNext σ ρ) : MiddlewareNext σ ρ :=
  mws.foldr (fun mw next => fun c => mw c next) finalHandler

/-- A middleware that records an entry marker, calls `next` exactly once,
and records an exit marker — the spec's ordered-log probe. -/
def logMw (tag : String) : Middleware (List String) Nat :=
  fun log next =>
    let r := next (log ++ [tag ++ "-enter"])
    (r.1 ++ [tag ++ "-exit"], r.2)

/-- A terminal handler that records its execution in the log. -/
def terminalHandler : MiddlewareNext (List String) Nat :=
  fun log => (log ++ ["terminal"], 0)

end JiraSdk

/-- Claim C9: installing `composeMiddleware(a, b)` behaves identically to
installing a then b individually (the two folds build the same chain), and
on a successful call where every middleware calls next exactly once the
recorded order is a-enter, b-enter, terminal, b-exit, a-exit, with the
terminal handler executed exactly once. -/
theorem C9_composition :
    (∀ (σ ρ : Type) (mws : List (Middleware σ ρ)) (final : MiddlewareNext σ ρ),
      buildMiddlewareChain [composeMiddleware mws] final = buildMiddlewareChain mws final)
    ∧ (buildMiddlewareChain [composeMiddleware [logMw "a", logMw "b"]] terminalHandler []).1
        = ["a-enter", "b-enter", "terminal", "b-exit", "a-exit"]
    ∧ (buildMiddlewareChain [composeMiddleware [logMw "a", logMw "b"]] terminalHandler
        []).1.count "terminal" = 1 := by
  refine ⟨?_, by decide, by decide⟩
  intro σ ρ mws final
  rfl

namespace JiraSdk

/-- Outcome of one call through the rate-limit middleware: admitted at once,
admitted after a cooperative sleep of the recorded duration, or rejected
with a RateLimitError carrying the recorded retryAfter. -/
inductive RateLimitOutcome where
  | admitted
  | admittedAfterWait (sleptMs : Int)
  | rejected (retryAfter : Int)
  deriving DecidableEq, Repr

/-- Embedding of the pruning loop of `createRateLimitMiddleware`
(middleware.ts line 264): shift while the head timestamp is strictly older
than `now - windowMs`. -/
def pruneTimestamps (windowMs now : Int) (ts : List Int) : List Int :=
  ts.dropWhile (fun t => decide (t < now - windowMs))

/-- The timestamps still inside the trailing window. -/
def keptTimestamps (windowMs now : Int) (ts : List Int) : List Int :=
  ts.filter (fun t => decide (now - windowMs ≤ t))

/-- Embedding of the per-call logic of `createRateLimitMiddleware`
(middleware.ts lines 256-291): prune, then either admit and record `now`,
or — at the limit — wait for the oldest slot (sleeping `oldest + windowMs -
now` when positive, then shifting the oldest and recording `now`) or throw a
RateLimitError with `retryAfter = oldest + windowMs - now`.  The empty-list
branches under the limit check mirror the TypeScript only vacuously: with
`maxRequests ≥ 1` the pruned list is nonempty whenever the limit check
fires (the TypeScript reads `timestamps[0]!` there). -/
def rateLimitStep (maxRequests : Nat) (windowMs : Int) (waitForSlot : Bool)
    (ts : List Int) (now : Int) : RateLimitOutcome × List Int :=
  let ts1 := pruneTimestamps windowMs now ts
  if maxRequests ≤ ts1.length then
    if waitForSlot then
      match ts1 with
      | [] => (RateLimitOutcome.admitted, [now])
      | oldest :: rest =>
        let waitTime := oldest + windowMs - now
        (RateLimitOutcome.admittedAfterWait (if 0 < waitTime then waitTime else 0),
          rest ++ [now])
    else
      match ts1 with
      | [] => (RateLimitOutcome.admitted, [now])
      | oldest :: rest =>
        (RateLimitOutcome.rejected (oldest + windowMs - now), oldest :: rest)
  else
    (RateLimitOutcome.admitted, ts1 ++ [now])

/-- On a sorted timestamp list, shifting the stale prefix removes exactly
the timestamps strictly older than the cutoff. -/
lemma dropWhile_lt_eq_filter (c : Int) :
    ∀ ts : List Int, ts.Sorted (· ≤ ·) →
      ts.dropWhile (fun t => decide (t < c)) = ts.filter (fun t => decide (c ≤ t)) := by
  intro ts h
  induction ts with
  | nil => simp
  | cons a l ih =>
    rcases List.sorted_cons.mp h with ⟨ha, hl⟩
    by_cases hac : a < c
    · simp [List.dropWhile_cons, List.filter_cons, hac, not_le.mpr hac, ih hl]
    · push_neg at hac
      have hall : ∀ b ∈ l, decide (c ≤ b) = true := by
        intro b hb
        simp [le_trans hac (ha b hb)]
      simp [List.dropWhile_cons, List.filter_cons, hac, not_lt.mpr hac,
        List.filter_eq_self.mpr hall]

end JiraSdk

/-- Claim C8, counterexample: with maxRequests=2, windowMs=1000, both
recorded timestamps exactly at the window boundary (age exactly W), a
rejected call gets retryAfter = 0, not a strictly positive retryAfter as
the claim states. -/
theorem C8_counterexample :
    rateLimitStep 2 1000 false [0, 0] 1000 = (RateLimitOutcome.rejected 0, [0, 0]) := by
  decide

/-- Claim C8 (amended): on each call with maxRequests=N and windowMs=W over
a sorted log of past timestamps, timestamps strictly older than now - W are
pruned; if fewer than N remain the call is admitted immediately with `now`
recorded; if N or more remain the call either sleeps exactly until the
oldest timestamp exits the window and then admits (waitForSlot=true), or
fails with a RateLimited error whose retryAfter is the time until the
oldest timestamp exits the window — at least 0 (0 exactly at the window
boundary) and at most W (waitForSlot=false). -/
theorem C8_rate_limiter (N : Nat) (W : Int) (ts : List Int) (now : Int)
    (hsort : ts.Sorted (· ≤ ·)) (hpast : ∀ t ∈ ts, t ≤ now) (hN : 1 ≤ N) :
    pruneTimestamps W now ts = keptTimestamps W now ts
    ∧ ((keptTimestamps W now ts).length < N → ∀ wait,
        rateLimitStep N W wait ts now
          = (RateLimitOutcome.admitted, keptTimestamps W now ts ++ [now]))
    ∧ (N ≤ (keptTimestamps W now ts).length →
        ∃ oldest rest, keptTimestamps W now ts = oldest :: rest
          ∧ now - W ≤ oldest ∧ oldest ≤ now
          ∧ rateLimitStep N W true ts now
              = (RateLimitOutcome.admittedAfterWait
                  (if 0 < oldest + W - now then oldest + W - now else 0), rest ++ [now])
          ∧ oldest + W ≤ now + (if 0 < oldest + W - now then oldest + W - now else 0)
          ∧ rateLimitStep N W false ts now
              = (RateLimitOutcome.rejected (oldest + W - now), oldest :: rest)
          ∧ 0 ≤ oldest + W - now ∧ oldest + W - now ≤ W) := by
  have hprune : pruneTimestamps W now ts = keptTimestamps W now ts :=
    dropWhile_lt_eq_filter (now - W) ts hsort
  refine ⟨hprune, ?_, ?_⟩
  · intro hlt wait
    have hcond : ¬ (N ≤ (pruneTimestamps W now ts).length) := by
      rw [hprune]; omega
    simp [rateLimitStep, hcond, hprune]
    intro hcontra
    exact absurd hcontra (by omega)
  · intro hge
    cases hk : keptTimestamps W now ts with
    | nil =>
      rw [hk] at hge
      simp at hge
      omega
    | cons oldest rest =>
      refine ⟨oldest, rest, rfl, ?_, ?_, ?_, ?_, ?_, ?_, ?_⟩
      · have hmem : oldest ∈ keptTimestamps W now ts := by
          rw [hk]; exact List.mem_cons_self oldest rest
        have := List.mem_filter.mp hmem
        simpa using this.2
      · have hmem : oldest ∈ keptTimestamps W now ts := by
          rw [hk]; exact List.mem_cons_self oldest rest
        exact hpast oldest (List.mem_of_mem_filter hmem)
      · have hcond : N ≤ (pruneTimestamps W now ts).length := by
          rw [hprune]; omega
        simp [rateLimitStep, hcond, hprune, hk]
        rw [hk] at hge
        simpa using hge
      · split <;> omega
      · have hcond : N ≤ (pruneTimestamps W now ts).length := by
          rw [hprune]; omega
        simp [rateLimitStep, hcond, hprune, hk]
        rw [hk] at hge
        simpa using hge
      · have hmem : oldest ∈ keptTimestamps W now ts := by
          rw [hk]; exact List.mem_cons_self oldest rest
        have h1 := List.mem_filter.mp hmem
        have h2 : now - W ≤ oldest := by simpa using h1.2
        omega
      · have hmem : oldest ∈ keptTimestamps W now ts := by
          rw [hk]; exact List.mem_cons_self oldest rest
        have h2 : oldest ≤ now := hpast oldest (List.mem_of_mem_filter hmem)
        omega

/-- Claim C8, witness: with maxRequests=2, windowMs=1000, one recorded
timestamp at time 0, a call at time 600 admits immediately; with two
timestamps at 0 and 100, a call at 600 in wait mode sleeps 400ms (until the
oldest exits the window) and in throw mode is rejected with
retryAfter=400. -/
theorem C8_rate_limiter_witness :
    rateLimitStep 2 1000 true [0] 600 = (RateLimitOutcome.admitted, [0, 600])
    ∧ rateLimitStep 2 1000 true [0, 100] 600
        = (RateLimitOutcome.admittedAfterWait 400, [100, 600])
    ∧ rateLimitStep 2 1000 false [0, 100] 600
        = (RateLimitOutcome.rejected 400, [0, 100]) := by
  refine ⟨?_, ?_, ?_⟩
  · have h := (C8_rate_limiter 2 1000 [0] 600 (by simp) (by simp) (by omega)).2.1
      (by decide) true
    simpa using h
  · obtain ⟨oldest, rest, hk, h1, h2, h3, h4, h5, h6, h7⟩ :=
      (C8_rate_limiter 2 1000 [0, 100] 600 (by simp) (by simp) (by omega)).2.2 (by decide)
    have ho : oldest = 0 ∧ rest = [100] := by
      have : keptTimestamps 1000 600 [0, 100] = [0, 100] := by decide
      rw [this] at hk
      exact ⟨(List.cons.injEq _ _ _ _ ▸ hk).1.symm, by
        injection hk with hh ht
        exact ht.symm⟩
    rcases ho with ⟨ho1, ho2⟩
    rw [ho1, ho2] at h3
    simpa using h3
  · obtain ⟨oldest, rest, hk, h1, h2, h3, h4, h5, h6, h7⟩ :=
      (C8_rate_limiter 2 1000 [0, 100] 600 (by simp) (by simp) (by omega)).2.2 (by decide)
    have hkept : keptTimestamps 1000 600 [0, 100] = [0, 100] := by decide
    rw [hkept] at hk
    have ho1 : oldest = 0 := by injection hk with hh ht; exact hh.symm
    have ho2 : rest = [100] := by injection hk with hh ht; exact ht.symm
    rw [ho1, ho2] at h5
    simpa using h5

namespace JiraSdk

/-- State of the OAuth2 single-flight coordinator (auth/oauth2.ts).
`slot` models the `refreshPromise` field: the identifier of the in-flight
refresh operation, if any.  `refreshCount` counts refresh operations
started, i.e. calls made to the token endpoint; a new operation gets the
current count as its identifier.  `subs` records, in arrival order, which
refresh operation each `getAuthHeaders()` caller awaits — callers awaiting
the same identifier await the same operation and hence resolve with the
same refreshed access token.  `needsRefresh` models `shouldRefreshToken()`:
the token is absent or inside the expiry buffer. -/
structure OAuthFlight where
  slot : Option Nat
  refreshCount : Nat
  subs : List (Nat × Nat)
  needsRefresh : Bool
  deriving DecidableEq, Repr

/-- Events of the coordinator under the single-threaded event loop.
`arrive c` is one `getAuthHeaders()` call by caller `c` executing its
synchronous prefix (lines 82-93 of oauth2.ts: the `shouldRefreshToken`
check, the `refreshPromise` check, and the assignment happen with no
intervening await, so the prefix is atomic); `settle` is the in-flight
refresh settling, whose `finally` clears `refreshPromise`. -/
inductive OAuthEvent where
  | arrive (caller : Nat)
  | settle
  deriving DecidableEq, Repr

/-- One event of the coordinator (oauth2.ts lines 82-102): an arriving
caller that needs a refresh starts a new operation only when no refresh is
in flight, otherwise subscribes to the in-flight one; a caller that does
not need a refresh leaves the state unchanged; settling clears the
in-flight marker (the `finally` on line 88-90) and, on success, leaves the
token fresh. -/
def oauthStep (s : OAuthFlight) : OAuthEvent → OAuthFlight
  | .arrive c =>
    if s.needsRefresh then
      match s.slot with
      | none =>
        { s with
          slot := some s.refreshCount,
          refreshCount := s.refreshCount + 1,
          subs := s.subs ++ [(c, s.refreshCount)] }
      | some j => { s with subs := s.subs ++ [(c, j)] }
    else s
  | .settle => { s with slot := none, needsRefresh := false }

/-- A sequence of coordinator events processed in order. -/
def oauthRun (s : OAuthFlight) (evs : List OAuthEvent) : OAuthFlight :=
  evs.foldl oauthStep s

/-- While a refresh is in flight, every further arrival merely subscribes to
it: the slot, the refresh count and the refresh-needed flag are unchanged
and the arrivals are appended as subscribers of the in-flight operation. -/
lemma oauthRun_joins (i : Nat) :
    ∀ (cs : List Nat) (s : OAuthFlight), s.slot = some i → s.needsRefresh = true →
      oauthRun s (cs.map OAuthEvent.arrive)
        = { s with subs := s.subs ++ cs.map (fun c => (c, i)) } := by
  intro cs
  induction cs with
  | nil => intro s h1 h2; simp [oauthRun]
  | cons c rest ih =>
    intro s h1 h2
    have hstep : oauthStep s (OAuthEvent.arrive c) = { s with subs := s.subs ++ [(c, i)] } := by
      simp [oauthStep, h2, h1]
    simp only [List.map_cons, oauthRun, List.foldl_cons]
    rw [hstep]
    have hrec := ih { s with subs := s.subs ++ [(c, i)] } (by simp [h1]) (by simp [h2])
    simp only [oauthRun] at hrec
    rw [hrec]
    simp

end JiraSdk

/-- Claim C2: for any nonempty set of getAuthHeaders() callers arriving
while the token needs refreshing and before the refresh settles, exactly
one refresh operation is started (one call to the token endpoint), every
caller subscribes to that same in-flight operation (hence resolves with the
same refreshed access token), the in-flight marker stays set across
arrivals, arrivals while a refresh is in flight never start a second one,
and the marker is cleared only by the operation settling. -/
theorem C2_single_flight (cs : List Nat) (n0 : Nat) (h : cs ≠ []) :
    (oauthRun ⟨none, n0, [], true⟩ (cs.map OAuthEvent.arrive)).refreshCount = n0 + 1
    ∧ (oauthRun ⟨none, n0, [], true⟩ (cs.map OAuthEvent.arrive)).slot = some n0
    ∧ (oauthRun ⟨none, n0, [], true⟩ (cs.map OAuthEvent.arrive)).subs
        = cs.map (fun c => (c, n0))
    ∧ (∀ (s : OAuthFlight) (c i : Nat), s.slot = some i →
        (oauthStep s (OAuthEvent.arrive c)).slot = some i
        ∧ (oauthStep s (OAuthEvent.arrive c)).refreshCount = s.refreshCount)
    ∧ (∀ s : OAuthFlight, (oauthStep s OAuthEvent.settle).slot = none) := by
  obtain ⟨c, rest, rfl⟩ : ∃ c rest, cs = c :: rest := by
    cases cs with
    | nil => exact absurd rfl h
    | cons c rest => exact ⟨c, rest, rfl⟩
  have hstep : oauthStep ⟨none, n0, [], true⟩ (OAuthEvent.arrive c)
      = ⟨some n0, n0 + 1, [(c, n0)], true⟩ := by
    simp [oauthStep]
  have hrun : oauthRun ⟨none, n0, [], true⟩ ((c :: rest).map OAuthEvent.arrive)
      = { slot := some n0, refreshCount := n0 + 1,
          subs := [(c, n0)] ++ rest.map (fun x => (x, n0)), needsRefresh := true } := by
    simp only [List.map_cons, oauthRun, List.foldl_cons]
    rw [hstep]
    exact oauthRun_joins n0 rest ⟨some n0, n0 + 1, [(c, n0)], true⟩ rfl rfl
  refine ⟨by rw [hrun], by rw [hrun], by rw [hrun]; simp, ?_, ?_⟩
  · intro s c2 i hs
    cases hnr : s.needsRefresh with
    | false => simp [oauthStep, hnr, hs]
    | true => simp [oauthStep, hnr, hs]
  · intro s
    simp [oauthStep]

/-- Claim C2, witness: three callers arriving on a token inside the expiry
buffer trigger exactly one refresh (count 0 becomes 1), all three subscribe
to operation 0, and the in-flight marker is still set until settle. -/
theorem C2_single_flight_witness :
    (oauthRun ⟨none, 0, [], true⟩ ([1, 2, 3].map OAuthEvent.arrive)).refreshCount = 1
    ∧ (oauthRun ⟨none, 0, [], true⟩ ([1, 2, 3].map OAuthEvent.arrive)).slot = some 0
    ∧ (oauthRun ⟨none, 0, [], true⟩ ([1, 2, 3].map OAuthEvent.arrive)).subs
        = [(1, 0), (2, 0), (3, 0)] := by
  have h := C2_single_flight [1, 2, 3] 0 (by decide)
  exact ⟨h.1, h.2.1, by rw [h.2.2.1]; simp⟩

namespace JiraSdk

/-- The OAuth2 provider's token fields (auth/oauth2.ts fields
`accessToken`, `refreshToken`, `expiresAt`). -/
structure OAuth2Tokens where
  accessToken : Option String
  refreshToken : Option String
  expiresAt : Option Int
  deriving DecidableEq, Repr

/-- Outcome of the token-endpoint exchange inside `refresh()` (oauth2.ts
lines 134-158): the fetch itself threw (a non-TokenRefreshError value
carrying identity `tag`), the response was not ok, the response JSON failed
schema validation, or a parsed token response with `access_token`, optional
`refresh_token` and optional `expires_in` (seconds). -/
inductive TokenFetchResult where
  | threw (tag : Nat)
  | httpFailure (status : Nat)
  | parseFailure
  | ok (accessTok : String) (refreshTok : Option String) (expiresIn : Option Int)
  deriving DecidableEq, Repr

/-- Outcome of the caller-supplied `onTokenRefresh` persistence callback:
returns normally, throws a TokenRefreshError (identity `tag`), or throws
some other error (identity `tag`). -/
inductive CbOutcome where
  | ok
  | throwTre (tag : Nat)
  | throwOther (tag : Nat)
  deriving DecidableEq, Repr

/-- The typed refresh failures surfaced by `refresh()`: missing refresh
token (configuration error), bad HTTP response, invalid token payload, a
TokenRefreshError rethrown unchanged from inside the try block, or a new
TokenRefreshError wrapping a non-TokenRefreshError cause. -/
inductive RefreshError where
  | noRefreshToken
  | httpError (status : Nat)
  | invalidResponse
  | passthrough (tag : Nat)
  | wrappedCause (tag : Nat)
  deriving DecidableEq, Repr

/-- JavaScript truthiness of an optional string (defined and nonempty). -/
def strTruthy : Option String → Bool
  | some s => decide (s ≠ "")
  | none => false

/-- Embedding of the token installation in `refresh()` (oauth2.ts lines
160-169): install the new access token; rotate the refresh token only when
the server sent a truthy one; recompute the expiry from a truthy
`expires_in` (seconds, converted to an absolute millisecond timestamp). -/
def installTokens (st : OAuth2Tokens) (now : Int) (tok : String)
    (rt : Option String) (ei : Option Int) : OAuth2Tokens :=
  let st1 : OAuth2Tokens := { st with accessToken := some tok }
  let st2 : OAuth2Tokens := if strTruthy rt then { st1 with refreshToken := rt } else st1
  match ei with
  | some v => if v ≠ 0 then { st2 with expiresAt := some (now + v * 1000) } else st2
  | none => st2

/-- Embedding of `OAuth2Auth.refresh` (oauth2.ts lines 122-185): fail fast
without a refresh token; translate exchange failures to TokenRefreshErrors
with the provider state untouched; on a parsed token response install the
tokens and then invoke the callback — a callback failure propagates (a
TokenRefreshError as-is, anything else wrapped by the outer catch) while
the installed tokens remain.  Returns the settled outcome together with the
provider's token state afterwards. -/
def refreshRun (st : OAuth2Tokens) (now : Int) (resp : TokenFetchResult)
    (cb : CbOutcome) : Except RefreshError Unit × OAuth2Tokens :=
  if strTruthy st.refreshToken = false then
    (Except.error RefreshError.noRefreshToken, st)
  else
    match resp with
    | .threw tag => (Except.error (RefreshError.wrappedCause tag), st)
    | .httpFailure status => (Except.error (RefreshError.httpError status), st)
    | .parseFailure => (Except.error RefreshError.invalidResponse, st)
    | .ok tok rt ei =>
      let st1 := installTokens st now tok rt ei
      match cb with
      | .ok => (Except.ok (), st1)
      | .throwTre tag => (Except.error (RefreshError.passthrough tag), st1)
      | .throwOther tag => (Except.error (RefreshError.wrappedCause tag), st1)

end JiraSdk

/-- Claim C10: when the refresh obtains and parses a valid token response
and the onTokenRefresh callback then throws, the provider keeps the newly
installed access token, rotated-or-kept refresh token and recomputed
expiry — exactly the state of a successful refresh — and the callback's
error propagates to the awaiting caller: unchanged if it already is a
TokenRefreshError, otherwise wrapped as one.  A callback failure never
rolls the token installation back. -/
theorem C10_callback_failure (st : OAuth2Tokens) (now : Int) (tok : String)
    (rt : Option String) (ei : Option Int) (tag : Nat)
    (h : strTruthy st.refreshToken = true) :
    refreshRun st now (TokenFetchResult.ok tok rt ei) (CbOutcome.throwTre tag)
      = (Except.error (RefreshError.passthrough tag), installTokens st now tok rt ei)
    ∧ refreshRun st now (TokenFetchResult.ok tok rt ei) (CbOutcome.throwOther tag)
      = (Except.error (RefreshError.wrappedCause tag), installTokens st now tok rt ei)
    ∧ (refreshRun st now (TokenFetchResult.ok tok rt ei) CbOutcome.ok).2
      = installTokens st now tok rt ei
    ∧ (installTokens st now tok rt ei).accessToken = some tok := by
  refine ⟨by simp [refreshRun, h], by simp [refreshRun, h], by simp [refreshRun, h], ?_⟩
  simp only [installTokens]
  cases ei with
  | none => cases hrt : strTruthy rt <;> simp [hrt]
  | some v =>
    cases hrt : strTruthy rt <;> by_cases hv : v ≠ 0 <;> simp [hrt, hv]

/-- Claim C10, witness: with a stored refresh token, a response rotating the
refresh token and setting expires_in=3600, a throwing callback leaves the
new tokens installed (access "new", refresh "rt2", expiry 3600000) while
its error propagates, wrapped only when it is not already a
TokenRefreshError. -/
theorem C10_callback_failure_witness :
    refreshRun ⟨some "old", some "rt", some 99⟩ 0
        (TokenFetchResult.ok "new" (some "rt2") (some 3600)) (CbOutcome.throwTre 7)
      = (Except.error (RefreshError.passthrough 7), ⟨some "new", some "rt2", some 3600000⟩)
    ∧ refreshRun ⟨some "old", some "rt", some 99⟩ 0
        (TokenFetchResult.ok "new" (some "rt2") (some 3600)) (CbOutcome.throwOther 8)
      = (Except.error (RefreshError.wrappedCause 8), ⟨some "new", some "rt2", some 3600000⟩) := by
  have h := C10_callback_failure ⟨some "old", some "rt", some 99⟩ 0 "new" (some "rt2")
    (some 3600) 7 (by decide)
  have h8 := C10_callback_failure ⟨some "old", some "rt", some 99⟩ 0 "new" (some "rt2")
    (some 3600) 8 (by decide)
  refine ⟨?_, ?_⟩
  · rw [h.1]
    rfl
  · rw [h8.2.1]
    rfl
